import Mathlib

/-!
Verification of the use-zoom-pan viewport transform engine.

The numeric model is the rationals: every quantity the engine manipulates
(scales, pixel coordinates, buffer sizes) is embedded as a value of type
Rat, and JavaScript arithmetic on finite doubles is modelled exactly.
A separate section models JavaScript numbers together with their special
values (NaN and the two infinities) for the claims that concern them.

Sources. The engine exists in the repository in several snapshots:

- utils.ts: calculateBounds and clampPosition (centered-origin variant,
  symmetric limits), normalizeWheelDelta;
- the self-contained legacy useZoomPan.ts (wheel, reset, drag, pinch,
  swipe container handlers, no keyboard support);
- the modular useZoomPan.ts (the one constants.ts / types.ts / utils.ts
  belong to), which adds the isAnimating re-entrancy guard, the
  NaN-or-Infinity guards and the clamp on the zoomTo target scale.

Each definition below names the file and function it is translated from.
-/

/-- A 2D coordinate or translation offset (types.ts, Position). -/
structure Position where
  x : ℚ
  y : ℚ
deriving DecidableEq, Repr

/-- Pan limits for the current scale (utils.ts, Bounds: the centered-origin
variant with symmetric limits per axis). -/
structure Bounds where
  xLimit : ℚ
  yLimit : ℚ
deriving DecidableEq, Repr

/-- Measured pixel box of a DOM element: clientWidth/clientHeight for the
container, offsetWidth/offsetHeight for the content element. -/
structure Dims where
  width : ℚ
  height : ℚ
deriving DecidableEq, Repr

/-- Merged configuration (constants.ts, DEFAULT_OPTIONS shape). -/
structure Config where
  minScale : ℚ
  maxScale : ℚ
  zoomSensitivity : ℚ
  clickZoomScale : ℚ
  dragThresholdMouse : ℚ
  dragThresholdTouch : ℚ
  swipeThreshold : ℚ
  boundsBuffer : ℚ
  enableSwipe : Bool
deriving DecidableEq, Repr

/-- DEFAULT_OPTIONS from constants.ts (0.002 = 1/500, 2.5 = 5/2). -/
def defaultConfig : Config :=
  { minScale := 1, maxScale := 6, zoomSensitivity := 1/500, clickZoomScale := 5/2
    dragThresholdMouse := 5, dragThresholdTouch := 10, swipeThreshold := 50
    boundsBuffer := 80, enableSwipe := true }

/-- calculateBounds from utils.ts.  The container and content elements can be
absent (refs not yet mounted), hence the Option arguments.  The JavaScript
fallback `element.offsetWidth || cw` replaces a zero (falsy) measurement by
the container measurement, translated by the inner if tests. -/
def calculateBounds (targetScale : ℚ) (container element : Option Dims)
    (boundsBuffer : ℚ) : Bounds :=
  match container, element with
  | some c, some el =>
    let cw := c.width
    let ch := c.height
    let ew := if el.width = 0 then cw else el.width
    let eh := if el.height = 0 then ch else el.height
    let sw := ew * targetScale
    let sh := eh * targetScale
    { xLimit := max 0 ((sw - cw) / 2) + boundsBuffer
      yLimit := max 0 ((sh - ch) / 2) + boundsBuffer }
  | _, _ => { xLimit := 0, yLimit := 0 }

/-- clampPosition from utils.ts: per-axis clamp of the candidate position to
the symmetric interval determined by calculateBounds. -/
def clampPosition (pos : Position) (targetScale : ℚ)
    (container element : Option Dims) (boundsBuffer : ℚ) : Position :=
  let b := calculateBounds targetScale container element boundsBuffer
  { x := max (-b.xLimit) (min b.xLimit pos.x)
    y := max (-b.yLimit) (min b.yLimit pos.y) }

/-- The focal position computed by the wheel handler before clamping
(legacy useZoomPan.ts, handleWheelManual): mouseX/mouseY is the anchor
relative to the container center, contentX = (mouseX - p.x) / s is the
content point currently under the anchor, and the new position keeps that
content point under the anchor at the new scale. -/
def wheelNewPosition (mouseX mouseY : ℚ) (currentPosition : Position)
    (currentScale newScale : ℚ) : Position :=
  { x := mouseX - ((mouseX - currentPosition.x) / currentScale) * newScale
    y := mouseY - ((mouseY - currentPosition.y) / currentScale) * newScale }

/-- Internal drag-session state (types.ts, DragState): x/y hold the anchor
offset (pointer minus content position at session start), hasDragged is the
click-suppression flag, startX/startY the initial pointer coordinates. -/
structure DragState where
  x : ℚ
  y : ℚ
  hasDragged : Bool
  startX : ℚ
  startY : ℚ
deriving DecidableEq, Repr

/-- Internal pinch-session state (types.ts, PinchState), rationals only. -/
structure PinchState where
  startDist : ℚ
  initialScale : ℚ
  startX : ℚ
  startY : ℚ
  startPos : Position
deriving DecidableEq, Repr

/-- The viewport state of the legacy self-contained useZoomPan.ts:
scale, position, the dragging and transitioning flags, and the ephemeral
drag and pinch sessions. -/
structure EngineState where
  scale : ℚ
  position : Position
  isDragging : Bool
  isTransitioning : Bool
  drag : DragState
  pinch : PinchState
deriving DecidableEq, Repr

/-- reset from the legacy useZoomPan.ts: scale back to minScale, position to
the centered rest offset (0, 0) in the centered-origin convention, dragging
cleared, hasDragged cleared, pinch session cleared, transition flagged. -/
def reset (cfg : Config) (s : EngineState) : EngineState :=
  { scale := cfg.minScale
    position := { x := 0, y := 0 }
    isDragging := false
    isTransitioning := true
    drag := { s.drag with hasDragged := false }
    pinch := { startDist := 0, initialScale := cfg.minScale, startX := 0, startY := 0
               startPos := { x := 0, y := 0 } } }

/-- onImageMouseDown from the legacy useZoomPan.ts: while zoomed in, start a
drag session anchored at the pointer; at rest scale the handler does nothing.
Returns the new isDragging flag and drag session. -/
def onImageMouseDown (cfg : Config) (scale : ℚ) (clientX clientY : ℚ)
    (position : Position) (isDragging : Bool) (d : DragState) :
    Bool × DragState :=
  if cfg.minScale < scale then
    (true,
     { x := clientX - position.x, y := clientY - position.y, hasDragged := false
       startX := clientX, startY := clientY })
  else (isDragging, d)

/-- onImageMouseMove from the legacy useZoomPan.ts.  The source compares
Math.hypot(dx, dy) against dragThresholdMouse; for a nonnegative threshold
this is equivalent to comparing the squares, which keeps the model inside
the rationals.  When the threshold has been crossed the handler commits the
clamped candidate position. -/
def onImageMouseMove (cfg : Config) (container element : Option Dims)
    (scale : ℚ) (isDragging : Bool) (clientX clientY : ℚ)
    (d : DragState) (pos : Position) : DragState × Position :=
  if isDragging ∧ cfg.minScale < scale then
    let d1 :=
      if d.hasDragged then d
      else if cfg.dragThresholdMouse ^ 2
              < (clientX - d.startX) ^ 2 + (clientY - d.startY) ^ 2 then
        { d with hasDragged := true }
      else d
    if d1.hasDragged then
      (d1, clampPosition { x := clientX - d.x, y := clientY - d.y } scale
             container element cfg.boundsBuffer)
    else (d1, pos)
  else (d, pos)

/-- A whole mouse-move sequence, folding onImageMouseMove over the events. -/
def runMouseMoves (cfg : Config) (container element : Option Dims)
    (scale : ℚ) (isDragging : Bool) (moves : List (ℚ × ℚ))
    (dp : DragState × Position) : DragState × Position :=
  moves.foldl
    (fun dp m =>
      onImageMouseMove cfg container element scale isDragging m.1 m.2 dp.1 dp.2)
    dp

/-- onImageClick from the legacy useZoomPan.ts, restricted to what it does
with the suppression flag: a click that follows a drag is swallowed and
clears the flag; otherwise the zoom action (reset when zoomed in, focal zoom
otherwise) runs.  Returns (zoom action taken, new drag session). -/
def onImageClick (d : DragState) : Bool × DragState :=
  if d.hasDragged then (false, { d with hasDragged := false })
  else (true, d)

/-- Navigation events fired by the swipe handlers. -/
inductive Nav where
  | next
  | prev
deriving DecidableEq, Repr

/-- onContainerMouseUp from the legacy useZoomPan.ts: while at rest scale,
compare the horizontal displacement recorded since mouse-down against
swipeThreshold and fire onNext (moved left) or onPrev (moved right).
The handler reads no vertical coordinate. -/
def onContainerMouseUp (cfg : Config) (scale : ℚ) (startX endX : ℚ) :
    Option Nav :=
  if cfg.minScale < scale then none
  else
    let diff := startX - endX
    if cfg.swipeThreshold < |diff| then
      (if 0 < diff then some Nav.next else some Nav.prev)
    else none

/-- Viewport state of the modular useZoomPan.ts, which adds the isAnimating
re-entrancy flag (a ref set by reset and zoomTo and cleared by a timer
after the 400 ms transition duration). -/
structure MState where
  scale : ℚ
  position : Position
  isDragging : Bool
  isTransitioning : Bool
  isAnimating : Bool
  hasDragged : Bool
deriving DecidableEq, Repr

namespace Modular

/-- reset from the modular useZoomPan.ts: a no-op while an animated
transition is in flight (isAnimating); otherwise scale goes back to
minScale, position to the centered rest offset computed from the measured
boxes when both elements are mounted (top-left-origin convention of that
snapshot) and to (0, 0) otherwise, sessions are cleared and the animation
flag is raised. -/
def reset (cfg : Config) (container element : Option Dims) (s : MState) :
    MState :=
  if s.isAnimating then s
  else
    let base : MState :=
      { s with isAnimating := true, isTransitioning := true, scale := cfg.minScale
               isDragging := false, hasDragged := false }
    match container, element with
    | some c, some el =>
      let iw := if el.width = 0 then c.width else el.width
      let ih := if el.height = 0 then c.height else el.height
      { base with position := { x := (c.width - iw * cfg.minScale) / 2
                                y := (c.height - ih * cfg.minScale) / 2 } }
    | _, _ => { base with position := { x := 0, y := 0 } }

/-- zoomTo from the modular useZoomPan.ts: a no-op while animating; with
both elements mounted it clamps the requested target scale into
[minScale, maxScale], computes the focal position for world point (x, y),
drops the update when the candidate is NaN or infinite, and otherwise
commits the clamped position and the clamped scale.  Over the rationals the
candidate is non-finite exactly when the current scale is zero (the only
division in the formula), so the isNaN-or-not-isFinite guard is translated
as that test.  On the guarded and unmounted paths the source resets
isAnimating to false before returning, and isTransitioning has already been
set. -/
def zoomTo (cfg : Config) (container element : Option Dims)
    (x y : ℚ) (targetScale : Option ℚ) (s : MState) : MState :=
  if s.isAnimating then s
  else
    match container, element with
    | some c, some el =>
      let ts := min (max cfg.minScale (targetScale.getD cfg.clickZoomScale))
                  cfg.maxScale
      if s.scale = 0 then { s with isTransitioning := true }
      else
        let px := (x - s.position.x) / s.scale
        let py := (y - s.position.y) / s.scale
        let np : Position := { x := x - px * ts, y := y - py * ts }
        { s with isTransitioning := true, isAnimating := true, scale := ts
                 position := clampPosition np ts (some c) (some el)
                               cfg.boundsBuffer }
    | _, _ => { s with isTransitioning := true }

/-- The deferred task scheduled by reset and zoomTo: after the 400 ms
transition duration the timer clears the isAnimating flag. -/
def animationTimerFire (s : MState) : MState :=
  { s with isAnimating := false }

end Modular

/-- Spec-side swipe predicate, written from the words of the claim: a
navigation callback should fire exactly when the horizontal displacement
exceeds swipeThreshold and also exceeds the vertical displacement.  Kept
separate from the source-derived onContainerMouseUp so the two can be
compared. -/
def claimSwipeFires (dx dy threshold : ℚ) : Prop :=
  threshold < |dx| ∧ |dy| < |dx|

instance (dx dy threshold : ℚ) : Decidable (claimSwipeFires dx dy threshold) :=
  inferInstanceAs (Decidable (_ ∧ _))

/-! ## JavaScript numbers with special values

The pinch handlers divide by a recorded finger distance that can be zero,
so their numeric behaviour depends on the IEEE special values.  JsNum is a
rational together with NaN and the two infinities, and the operations below
follow the JavaScript evaluation rules (Math.min, Math.max and the
comparisons all treat NaN as absorbing or false).  Signed zero is not
modelled; no embedded code path distinguishes it. -/

inductive JsNum where
  | num : ℚ → JsNum
  | nan : JsNum
  | inf : JsNum
  | ninf : JsNum
deriving DecidableEq, Repr

/-- JavaScript addition. -/
def jadd : JsNum → JsNum → JsNum
  | .nan, _ => .nan
  | _, .nan => .nan
  | .inf, .ninf => .nan
  | .ninf, .inf => .nan
  | .inf, _ => .inf
  | _, .inf => .inf
  | .ninf, _ => .ninf
  | _, .ninf => .ninf
  | .num a, .num b => .num (a + b)

/-- JavaScript negation. -/
def jneg : JsNum → JsNum
  | .nan => .nan
  | .inf => .ninf
  | .ninf => .inf
  | .num a => .num (-a)

/-- JavaScript subtraction. -/
def jsub (a b : JsNum) : JsNum := jadd a (jneg b)

/-- JavaScript multiplication. -/
def jmul : JsNum → JsNum → JsNum
  | .nan, _ => .nan
  | _, .nan => .nan
  | .num a, .num b => .num (a * b)
  | .inf, .num a => if a = 0 then .nan else if 0 < a then .inf else .ninf
  | .num a, .inf => if a = 0 then .nan else if 0 < a then .inf else .ninf
  | .ninf, .num a => if a = 0 then .nan else if 0 < a then .ninf else .inf
  | .num a, .ninf => if a = 0 then .nan else if 0 < a then .ninf else .inf
  | .inf, .inf => .inf
  | .inf, .ninf => .ninf
  | .ninf, .inf => .ninf
  | .ninf, .ninf => .inf

/-- JavaScript division: a finite number divided by zero gives an infinity
of the matching sign, and 0 / 0 gives NaN. -/
def jdiv : JsNum → JsNum → JsNum
  | .nan, _ => .nan
  | _, .nan => .nan
  | .num a, .num b =>
      if b = 0 then (if a = 0 then .nan else if 0 < a then .inf else .ninf)
      else .num (a / b)
  | .inf, .num b => if 0 ≤ b then .inf else .ninf
  | .ninf, .num b => if 0 ≤ b then .ninf else .inf
  | .num _, .inf => .num 0
  | .num _, .ninf => .num 0
  | .inf, _ => .nan
  | .ninf, _ => .nan

/-- JavaScript Math.max: NaN absorbs. -/
def jmax : JsNum → JsNum → JsNum
  | .nan, _ => .nan
  | _, .nan => .nan
  | .inf, _ => .inf
  | _, .inf => .inf
  | .ninf, b => b
  | a, .ninf => a
  | .num a, .num b => .num (max a b)

/-- JavaScript Math.min: NaN absorbs. -/
def jmin : JsNum → JsNum → JsNum
  | .nan, _ => .nan
  | _, .nan => .nan
  | .ninf, _ => .ninf
  | _, .ninf => .ninf
  | .inf, b => b
  | a, .inf => a
  | .num a, .num b => .num (min a b)

/-- JavaScript strict comparison: false whenever NaN is involved. -/
def jlt : JsNum → JsNum → Bool
  | .nan, _ => false
  | _, .nan => false
  | .ninf, .ninf => false
  | .ninf, _ => true
  | _, .ninf => false
  | .inf, _ => false
  | .num _, .inf => true
  | .num a, .num b => decide (a < b)

/-- JavaScript non-strict comparison: false whenever NaN is involved. -/
def jle : JsNum → JsNum → Bool
  | .nan, _ => false
  | _, .nan => false
  | .ninf, _ => true
  | _, .ninf => false
  | .inf, .inf => true
  | .num _, .inf => true
  | .inf, .num _ => false
  | .num a, .num b => decide (a ≤ b)

/-- Position over JavaScript numbers. -/
structure JPos where
  x : JsNum
  y : JsNum
deriving DecidableEq, Repr

/-- Measured box over JavaScript numbers. -/
structure JDims where
  width : JsNum
  height : JsNum
deriving DecidableEq, Repr

/-- Cached container bounding rectangle (DOMRect fields the code reads). -/
structure JRect where
  left : JsNum
  top : JsNum
  width : JsNum
  height : JsNum
deriving DecidableEq, Repr

/-- Pinch session of the legacy useZoomPan.ts over JavaScript numbers,
including the optional cached container rectangle. -/
structure JPinch where
  startDist : JsNum
  initialScale : JsNum
  startX : JsNum
  startY : JsNum
  startPos : JPos
  containerRect : Option JRect
deriving DecidableEq, Repr

/-- The configuration fields the pinch path reads, over JavaScript numbers. -/
structure JConfig where
  minScale : JsNum
  maxScale : JsNum
  boundsBuffer : JsNum
deriving DecidableEq, Repr

/-- The scale and position the pinch handler commits. -/
structure JState where
  scale : JsNum
  position : JPos
deriving DecidableEq, Repr

/-- calculateBounds as defined inside the legacy useZoomPan.ts (the ternary
variant), over JavaScript numbers; the falsy fallback on a zero measurement
is the same as in utils.ts. -/
def jCalculateBounds (targetScale : JsNum) (container element : Option JDims)
    (boundsBuffer : JsNum) : JPos :=
  match container, element with
  | some c, some el =>
    let ew := if el.width = JsNum.num 0 then c.width else el.width
    let eh := if el.height = JsNum.num 0 then c.height else el.height
    let sw := jmul ew targetScale
    let sh := jmul eh targetScale
    { x := jadd (if jle sw c.width then .num 0
                 else jdiv (jsub sw c.width) (.num 2)) boundsBuffer
      y := jadd (if jle sh c.height then .num 0
                 else jdiv (jsub sh c.height) (.num 2)) boundsBuffer }
  | _, _ => { x := .num 0, y := .num 0 }

/-- clampPosition of the legacy useZoomPan.ts over JavaScript numbers. -/
def jClampPosition (pos : JPos) (targetScale : JsNum)
    (container element : Option JDims) (boundsBuffer : JsNum) : JPos :=
  let b := jCalculateBounds targetScale container element boundsBuffer
  { x := jmax (jneg b.x) (jmin b.x pos.x)
    y := jmax (jneg b.y) (jmin b.y pos.y) }

/-- getPinchPosition from the legacy useZoomPan.ts: maps the current pinch
center back through the recorded session to the candidate content
position. -/
def getPinchPosition (p : JPinch) (centerX centerY newScale : JsNum) : JPos :=
  match p.containerRect with
  | none => { x := .num 0, y := .num 0 }
  | some rect =>
    let containerCenterX := jdiv rect.width (.num 2)
    let containerCenterY := jdiv rect.height (.num 2)
    let currentPinchX := jsub centerX (jadd rect.left containerCenterX)
    let currentPinchY := jsub centerY (jadd rect.top containerCenterY)
    let startPinchX := jsub p.startX (jadd rect.left containerCenterX)
    let startPinchY := jsub p.startY (jadd rect.top containerCenterY)
    let scaleFactor := jdiv newScale p.initialScale
    let pinchImageX := jsub startPinchX p.startPos.x
    let pinchImageY := jsub startPinchY p.startPos.y
    { x := jsub currentPinchX (jmul pinchImageX scaleFactor)
      y := jsub currentPinchY (jmul pinchImageY scaleFactor) }

/-- The two-finger branch of onImageTouchStart in the legacy useZoomPan.ts:
records the inter-finger distance, the current scale and position, the pinch
center and the container rectangle in the pinch session.  dist is
Math.hypot of the finger deltas and centerX/centerY their midpoint,
computed by the handler from the two touch points; they are taken as inputs
here because a square root of a rational need not be rational (at the
inputs used below both fingers coincide, where the hypotenuse is exactly
zero). -/
def onImageTouchStartPinch (dist centerX centerY : JsNum) (scale : JsNum)
    (position : JPos) (containerRect : Option JRect) : JPinch :=
  { startDist := dist, initialScale := scale, startX := centerX
    startY := centerY, startPos := position, containerRect := containerRect }

/-- The two-finger branch of onImageTouchMove in the legacy useZoomPan.ts:
newScale = Math.min(Math.max(minScale, initialScale * dist / startDist),
maxScale); if the session has a container rectangle and newScale exceeds
minScale the clamped pinch position is committed, otherwise position
(0, 0); the scale committed is newScale on both branches, with no
finiteness check on it.  As in the start handler, dist and the center are
the hypotenuse and midpoint of the two touch points.  The result is the
committed (scale, position) pair, replacing whatever state was visible
before the event. -/
def onImageTouchMovePinch (cfg : JConfig) (container element : Option JDims)
    (p : JPinch) (dist centerX centerY : JsNum) : JState :=
  let newScale :=
    jmin (jmax cfg.minScale (jmul p.initialScale (jdiv dist p.startDist)))
      cfg.maxScale
  if p.containerRect.isSome && jlt cfg.minScale newScale then
    { scale := newScale
      position := jClampPosition (getPinchPosition p centerX centerY newScale)
                    newScale container element cfg.boundsBuffer }
  else
    { scale := newScale, position := { x := .num 0, y := .num 0 } }

/-! ## Claim theorems -/

/-- C10: when the container or the content element reference is null,
clampPosition returns the origin for every input position and scale: the
absent-element branch of calculateBounds yields zero limits, so the clamp
collapses any candidate to (0, 0) instead of passing it through. -/
theorem clampPosition_null_elements_origin :
    ∀ (pos : Position) (s buf : ℚ) (e c : Option Dims),
      clampPosition pos s none e buf = { x := 0, y := 0 } ∧
      clampPosition pos s c none buf = { x := 0, y := 0 } := by
  intro pos s buf e c
  constructor
  · simp [clampPosition, calculateBounds, max_eq_left, min_le_left]
  · cases c <;> simp [clampPosition, calculateBounds, max_eq_left, min_le_left]

/-- C6: reset (legacy useZoomPan.ts) always lands on scale = minScale with
the centered rest position (0, 0), and running it twice in a row is the
same as running it once. -/
theorem reset_minScale_centered_idempotent :
    ∀ (cfg : Config) (s : EngineState),
      ((reset cfg s).scale = cfg.minScale ∧
        (reset cfg s).position = { x := 0, y := 0 }) ∧
      reset cfg (reset cfg s) = reset cfg s := by
  intro cfg s
  exact ⟨⟨rfl, rfl⟩, rfl⟩

/-- C3: the focal position computed by the wheel handler before clamping
preserves the focal point: the content point under the anchor before the
zoom, (anchor - p) / s, is rendered under the same anchor after the zoom,
(anchor - p2) / s2, exactly (over the rationals; the source works in
floating point, whence the tolerance wording in the specification). -/
theorem wheel_focal_point_preserved (mouseX mouseY : ℚ) (p : Position)
    (s s2 : ℚ) (hs : s ≠ 0) (h2 : s2 ≠ 0) :
    (mouseX - (wheelNewPosition mouseX mouseY p s s2).x) / s2
        = (mouseX - p.x) / s ∧
    (mouseY - (wheelNewPosition mouseX mouseY p s s2).y) / s2
        = (mouseY - p.y) / s := by
  unfold wheelNewPosition
  constructor <;> (field_simp; ring)

/-- C3 witness: the theorem applied at a concrete zoom step. -/
theorem wheel_focal_point_preserved_witness :
    (10 - (wheelNewPosition 10 20 { x := 4, y := 6 } 2 3).x) / 3
        = ((10 : ℚ) - 4) / 2 ∧
    (20 - (wheelNewPosition 10 20 { x := 4, y := 6 } 2 3).y) / 3
        = ((20 : ℚ) - 6) / 2 :=
  wheel_focal_point_preserved 10 20 { x := 4, y := 6 } 2 3
    (by norm_num) (by norm_num)

/-- C2: zoomTo (modular useZoomPan.ts) commits exactly the requested target
scale clamped into [minScale, maxScale], for every target scale including
out-of-range ones, whenever the call commits at all (no animation in
flight, both elements mounted, current scale nonzero so the candidate is
finite). -/
theorem zoomTo_scale_clamped (cfg : Config) (c el : Dims) (x y ts : ℚ)
    (s : MState) (h1 : s.isAnimating = false) (h2 : s.scale ≠ 0) :
    (Modular.zoomTo cfg (some c) (some el) x y (some ts) s).scale
      = min (max cfg.minScale ts) cfg.maxScale := by
  simp [Modular.zoomTo, h1, h2]

/-- C2 witness: requesting scale 100 under the default configuration
(minScale 1, maxScale 6) commits scale 6. -/
theorem zoomTo_scale_clamped_witness :
    (Modular.zoomTo defaultConfig (some { width := 800, height := 600 })
        (some { width := 800, height := 600 }) 0 0 (some 100)
        { scale := 1, position := { x := 0, y := 0 }, isDragging := false
          isTransitioning := false, isAnimating := false
          hasDragged := false }).scale = 6 := by
  rw [zoomTo_scale_clamped defaultConfig { width := 800, height := 600 }
    { width := 800, height := 600 } 0 0 100 _ rfl (by norm_num)]
  norm_num [defaultConfig]

/-- C9: while an animated transition is in flight (the isAnimating flag set
by reset or zoomTo and cleared only when the 400 ms timer fires), a second
zoomTo or reset is a no-op: the whole state, in particular scale and
position, is unchanged. -/
theorem transition_reentrancy_noop (cfg : Config) (c el : Option Dims)
    (x y : ℚ) (t : Option ℚ) (s : MState) (h : s.isAnimating = true) :
    Modular.zoomTo cfg c el x y t s = s ∧ Modular.reset cfg c el s = s := by
  constructor <;> simp [Modular.zoomTo, Modular.reset, h]

/-- C9 witness: the theorem applied to an in-flight state. -/
theorem transition_reentrancy_noop_witness :
    Modular.zoomTo defaultConfig (some { width := 800, height := 600 })
        (some { width := 800, height := 600 }) 1 2 (some 3)
        { scale := 2, position := { x := 5, y := 7 }, isDragging := false
          isTransitioning := true, isAnimating := true, hasDragged := false }
      = { scale := 2, position := { x := 5, y := 7 }, isDragging := false
          isTransitioning := true, isAnimating := true
          hasDragged := false } ∧
    Modular.reset defaultConfig (some { width := 800, height := 600 })
        (some { width := 800, height := 600 })
        { scale := 2, position := { x := 5, y := 7 }, isDragging := false
          isTransitioning := true, isAnimating := true, hasDragged := false }
      = { scale := 2, position := { x := 5, y := 7 }, isDragging := false
          isTransitioning := true, isAnimating := true
          hasDragged := false } :=
  transition_reentrancy_noop defaultConfig
    (some { width := 800, height := 600 })
    (some { width := 800, height := 600 }) 1 2 (some 3) _ rfl

/-- C4: calculateBounds (utils.ts), for positive measured content.  In a
dimension where the scaled content fits the container the limit is exactly
boundsBuffer, so the allowed pan range is the centering offset 0 plus or
minus the buffer.  Where the scaled content overflows, the limit is half
the overflow plus the buffer, so the symmetric range spans the full
overflow extended by the buffer on each side, and at the extreme
translation the content edge sits exactly boundsBuffer pixels past the
container edge (the third conjunct: the centered edge offset plus the limit
equals the buffer).  The last two conjuncts state that each limit is
computed from its own axis only. -/
theorem calculateBounds_spec (sc cw ch ew eh buf : ℚ)
    (hew : 0 < ew) (heh : 0 < eh) :
    ((ew * sc ≤ cw →
        (calculateBounds sc (some { width := cw, height := ch })
            (some { width := ew, height := eh }) buf).xLimit = buf) ∧
      (cw < ew * sc →
        (calculateBounds sc (some { width := cw, height := ch })
            (some { width := ew, height := eh }) buf).xLimit
          = (ew * sc - cw) / 2 + buf ∧
        (cw - ew * sc) / 2
          + (calculateBounds sc (some { width := cw, height := ch })
              (some { width := ew, height := eh }) buf).xLimit = buf)) ∧
    ((eh * sc ≤ ch →
        (calculateBounds sc (some { width := cw, height := ch })
            (some { width := ew, height := eh }) buf).yLimit = buf) ∧
      (ch < eh * sc →
        (calculateBounds sc (some { width := cw, height := ch })
            (some { width := ew, height := eh }) buf).yLimit
          = (eh * sc - ch) / 2 + buf ∧
        (ch - eh * sc) / 2
          + (calculateBounds sc (some { width := cw, height := ch })
              (some { width := ew, height := eh }) buf).yLimit = buf)) ∧
    (∀ ch2 eh2 : ℚ,
        (calculateBounds sc (some { width := cw, height := ch2 })
            (some { width := ew, height := eh2 }) buf).xLimit
          = (calculateBounds sc (some { width := cw, height := ch })
              (some { width := ew, height := eh }) buf).xLimit) ∧
    (∀ cw2 ew2 : ℚ,
        (calculateBounds sc (some { width := cw2, height := ch })
            (some { width := ew2, height := eh }) buf).yLimit
          = (calculateBounds sc (some { width := cw, height := ch })
              (some { width := ew, height := eh }) buf).yLimit) := by
  have hew' : ew ≠ 0 := ne_of_gt hew
  have heh' : eh ≠ 0 := ne_of_gt heh
  refine ⟨⟨?_, ?_⟩, ⟨?_, ?_⟩, ?_, ?_⟩
  · intro h
    simp only [calculateBounds, if_neg hew', if_neg heh']
    rw [max_eq_left (by linarith : (ew * sc - cw) / 2 ≤ 0)]
    ring
  · intro h
    simp only [calculateBounds, if_neg hew', if_neg heh']
    rw [max_eq_right (by linarith : (0 : ℚ) ≤ (ew * sc - cw) / 2)]
    constructor
    · rfl
    · ring
  · intro h
    simp only [calculateBounds, if_neg hew', if_neg heh']
    rw [max_eq_left (by linarith : (eh * sc - ch) / 2 ≤ 0)]
    ring
  · intro h
    simp only [calculateBounds, if_neg hew', if_neg heh']
    rw [max_eq_right (by linarith : (0 : ℚ) ≤ (eh * sc - ch) / 2)]
    constructor
    · rfl
    · ring
  · intro ch2 eh2
    simp only [calculateBounds, if_neg hew', if_neg heh']
  · intro cw2 ew2
    simp only [calculateBounds, if_neg hew', if_neg heh']

/-- C4 witness: scale 2, container 800 by 600, content 500 by 200, buffer
80: the width overflows (limit 100 + 80) while the height fits (limit
80). -/
theorem calculateBounds_spec_witness :
    (calculateBounds 2 (some { width := 800, height := 600 })
        (some { width := 500, height := 200 }) 80).xLimit = 180 ∧
    (calculateBounds 2 (some { width := 800, height := 600 })
        (some { width := 500, height := 200 }) 80).yLimit = 80 := by
  have h := calculateBounds_spec 2 800 600 500 200 80 (by norm_num) (by norm_num)
  constructor
  · rw [(h.1.2 (by norm_num)).1]
    norm_num
  · exact h.2.1.1 (by norm_num)

/-- C7 counterexample: a release of a predominantly vertical gesture
(horizontal displacement 51 to the left, vertical displacement 200) at rest
scale under the default configuration.  The claim says no callback may fire
because the horizontal displacement does not exceed the vertical one, but
onContainerMouseUp, which receives and stores only x coordinates, fires
onNext. -/
theorem swipe_fires_on_vertical_gesture :
    onContainerMouseUp defaultConfig 1 0 (-51) = some Nav.next ∧
    ¬ claimSwipeFires (-51) 200 50 := by
  have habs : |(0 : ℚ) - (-51)| = 51 := by
    rw [abs_of_pos] <;> norm_num
  constructor
  · simp only [onContainerMouseUp, defaultConfig, habs]
    norm_num
  · simp only [claimSwipeFires, not_and]
    intro h1
    have : |(-51 : ℚ)| = 51 := by
      rw [abs_of_neg] <;> norm_num
    rw [this, abs_of_pos (by norm_num : (0:ℚ) < 200)]
    norm_num

/-- C7 amended: on release at rest scale a navigation callback fires if and
only if the horizontal displacement exceeds swipeThreshold; the vertical
displacement is not consulted (the container handlers record only the x
coordinate).  Exactly one of onNext (movement to the left) or onPrev
(movement to the right) fires, and at scale above minScale neither
fires. -/
theorem swipe_resolution_amended (cfg : Config) (scale startX endX : ℚ)
    (ht : 0 ≤ cfg.swipeThreshold) :
    (cfg.minScale < scale → onContainerMouseUp cfg scale startX endX = none) ∧
    (scale ≤ cfg.minScale →
      (onContainerMouseUp cfg scale startX endX = some Nav.next ↔
        cfg.swipeThreshold < startX - endX) ∧
      (onContainerMouseUp cfg scale startX endX = some Nav.prev ↔
        cfg.swipeThreshold < endX - startX)) := by
  unfold onContainerMouseUp
  constructor
  · intro h
    rw [if_pos h]
  · intro h
    rw [if_neg (not_lt.mpr h)]
    constructor
    · constructor
      · intro hr
        by_cases h1 : cfg.swipeThreshold < |startX - endX|
        · rw [if_pos h1] at hr
          by_cases h2 : (0 : ℚ) < startX - endX
          · rw [abs_of_pos h2] at h1
            exact h1
          · rw [if_neg h2] at hr
            exact absurd hr (by simp)
        · rw [if_neg h1] at hr
          exact absurd hr (by simp)
      · intro hd
        have h2 : (0 : ℚ) < startX - endX := lt_of_le_of_lt ht hd
        have h1 : cfg.swipeThreshold < |startX - endX| := by
          rw [abs_of_pos h2]
          exact hd
        rw [if_pos h1, if_pos h2]
    · constructor
      · intro hr
        by_cases h1 : cfg.swipeThreshold < |startX - endX|
        · rw [if_pos h1] at hr
          by_cases h2 : (0 : ℚ) < startX - endX
          · rw [if_pos h2] at hr
            exact absurd hr (by simp)
          · push_neg at h2
            rw [abs_of_nonpos (by linarith)] at h1
            linarith
        · rw [if_neg h1] at hr
          exact absurd hr (by simp)
      · intro hd
        have h2 : ¬ (0 : ℚ) < startX - endX := by linarith
        have h1 : cfg.swipeThreshold < |startX - endX| := by
          rw [abs_of_nonpos (by linarith)]
          linarith
        rw [if_pos h1, if_neg h2]

/-- C7 witness for the amended statement: the theorem applied to the
gesture of the counterexample (release 51 pixels to the left of the press
at rest scale). -/
theorem swipe_resolution_amended_witness :
    (defaultConfig.minScale < 1 →
      onContainerMouseUp defaultConfig 1 0 (-51) = none) ∧
    ((1 : ℚ) ≤ defaultConfig.minScale →
      (onContainerMouseUp defaultConfig 1 0 (-51) = some Nav.next ↔
        defaultConfig.swipeThreshold < 0 - (-51)) ∧
      (onContainerMouseUp defaultConfig 1 0 (-51) = some Nav.prev ↔
        defaultConfig.swipeThreshold < -51 - 0)) :=
  swipe_resolution_amended defaultConfig 1 0 (-51) (by norm_num [defaultConfig])

lemma mouseMove_keeps_anchor (cfg : Config) (c el : Option Dims) (scale : ℚ)
    (dragging : Bool) (mx my : ℚ) (d : DragState) (pos : Position) :
    ((onImageMouseMove cfg c el scale dragging mx my d pos).1).x = d.x ∧
    ((onImageMouseMove cfg c el scale dragging mx my d pos).1).y = d.y ∧
    ((onImageMouseMove cfg c el scale dragging mx my d pos).1).startX
      = d.startX ∧
    ((onImageMouseMove cfg c el scale dragging mx my d pos).1).startY
      = d.startY := by
  unfold onImageMouseMove
  by_cases hg : dragging ∧ cfg.minScale < scale
  · rw [if_pos hg]
    by_cases hd : d.hasDragged
    · simp [hd]
    · by_cases hth : cfg.dragThresholdMouse ^ 2
          < (mx - d.startX) ^ 2 + (my - d.startY) ^ 2
      · simp [hd, hth]
      · simp [hd, hth]
  · rw [if_neg hg]
    exact ⟨rfl, rfl, rfl, rfl⟩

lemma mouseMove_flag_monotone (cfg : Config) (c el : Option Dims) (scale : ℚ)
    (dragging : Bool) (mx my : ℚ) (d : DragState) (pos : Position)
    (h : d.hasDragged = true) :
    ((onImageMouseMove cfg c el scale dragging mx my d pos).1).hasDragged
      = true := by
  unfold onImageMouseMove
  by_cases hg : dragging ∧ cfg.minScale < scale
  · rw [if_pos hg]
    simp [h]
  · rw [if_neg hg]
    exact h

lemma mouseMove_flag_stays_false (cfg : Config) (c el : Option Dims)
    (scale : ℚ) (dragging : Bool) (mx my : ℚ) (d : DragState) (pos : Position)
    (h : d.hasDragged = false)
    (hsmall : ¬ cfg.dragThresholdMouse ^ 2
        < (mx - d.startX) ^ 2 + (my - d.startY) ^ 2) :
    ((onImageMouseMove cfg c el scale dragging mx my d pos).1).hasDragged
      = false := by
  unfold onImageMouseMove
  by_cases hg : dragging ∧ cfg.minScale < scale
  · rw [if_pos hg]
    simp [h, hsmall]
  · rw [if_neg hg]
    exact h

lemma mouseMove_flag_crosses (cfg : Config) (c el : Option Dims) (scale : ℚ)
    (mx my : ℚ) (d : DragState) (pos : Position) (hs : cfg.minScale < scale)
    (hbig : cfg.dragThresholdMouse ^ 2
        < (mx - d.startX) ^ 2 + (my - d.startY) ^ 2) :
    ((onImageMouseMove cfg c el scale true mx my d pos).1).hasDragged
      = true := by
  unfold onImageMouseMove
  rw [if_pos ⟨rfl, hs⟩]
  by_cases hd : d.hasDragged
  · simp [hd]
  · simp [hd, hbig]

lemma runMouseMoves_keeps_start (cfg : Config) (c el : Option Dims)
    (scale : ℚ) (dragging : Bool) :
    ∀ (moves : List (ℚ × ℚ)) (dp : DragState × Position),
      ((runMouseMoves cfg c el scale dragging moves dp).1).startX
          = dp.1.startX ∧
      ((runMouseMoves cfg c el scale dragging moves dp).1).startY
          = dp.1.startY := by
  intro moves
  induction moves with
  | nil => intro dp; exact ⟨rfl, rfl⟩
  | cons m ms ih =>
    intro dp
    have hstep := mouseMove_keeps_anchor cfg c el scale dragging m.1 m.2 dp.1 dp.2
    have htail := ih (onImageMouseMove cfg c el scale dragging m.1 m.2 dp.1 dp.2)
    exact ⟨htail.1.trans hstep.2.2.1, htail.2.trans hstep.2.2.2⟩

lemma runMouseMoves_flag_monotone (cfg : Config) (c el : Option Dims)
    (scale : ℚ) (dragging : Bool) :
    ∀ (moves : List (ℚ × ℚ)) (dp : DragState × Position),
      dp.1.hasDragged = true →
      ((runMouseMoves cfg c el scale dragging moves dp).1).hasDragged
        = true := by
  intro moves
  induction moves with
  | nil => intro dp h; exact h
  | cons m ms ih =>
    intro dp h
    exact ih _ (mouseMove_flag_monotone cfg c el scale dragging m.1 m.2 dp.1 dp.2 h)

lemma runMouseMoves_flag_stays_false (cfg : Config) (c el : Option Dims)
    (scale : ℚ) (dragging : Bool) :
    ∀ (moves : List (ℚ × ℚ)) (dp : DragState × Position),
      dp.1.hasDragged = false →
      (∀ m ∈ moves, (m.1 - dp.1.startX) ^ 2 + (m.2 - dp.1.startY) ^ 2
          < cfg.dragThresholdMouse ^ 2) →
      ((runMouseMoves cfg c el scale dragging moves dp).1).hasDragged
        = false := by
  intro moves
  induction moves with
  | nil => intro dp h _; exact h
  | cons m ms ih =>
    intro dp h hsmall
    have hm := hsmall m (List.mem_cons_self m ms)
    have hstep := mouseMove_flag_stays_false cfg c el scale dragging m.1 m.2
      dp.1 dp.2 h (not_lt.mpr (le_of_lt hm))
    have hfields := mouseMove_keeps_anchor cfg c el scale dragging m.1 m.2 dp.1 dp.2
    refine ih _ hstep ?_
    intro m2 hm2
    rw [hfields.2.2.1, hfields.2.2.2]
    exact hsmall m2 (List.mem_cons_of_mem m hm2)

lemma runMouseMoves_flag_crosses (cfg : Config) (c el : Option Dims)
    (scale : ℚ) (hs : cfg.minScale < scale) :
    ∀ (moves : List (ℚ × ℚ)) (dp : DragState × Position),
      (∃ m ∈ moves, cfg.dragThresholdMouse ^ 2
          < (m.1 - dp.1.startX) ^ 2 + (m.2 - dp.1.startY) ^ 2) →
      ((runMouseMoves cfg c el scale true moves dp).1).hasDragged = true := by
  intro moves
  induction moves with
  | nil =>
    intro dp h
    exact absurd h (by simp)
  | cons m ms ih =>
    intro dp h
    rcases h with ⟨m2, hm2, hgt⟩
    rcases List.mem_cons.mp hm2 with hEq | hTail
    · subst hEq
      exact runMouseMoves_flag_monotone cfg c el scale true ms _
        (mouseMove_flag_crosses cfg c el scale m2.1 m2.2 dp.1 dp.2 hs hgt)
    · by_cases hflag :
        ((onImageMouseMove cfg c el scale true m.1 m.2 dp.1 dp.2).1).hasDragged
      · exact runMouseMoves_flag_monotone cfg c el scale true ms _ hflag
      · have hfields := mouseMove_keeps_anchor cfg c el scale true m.1 m.2 dp.1 dp.2
        refine ih _ ⟨m2, hTail, ?_⟩
        rw [hfields.2.2.1, hfields.2.2.2]
        exact hgt

/-- C8: threshold gating of the click handler (legacy useZoomPan.ts,
onImageMouseDown, onImageMouseMove, onImageClick).  After a mouse-down
while zoomed in, a move sequence in which every event stays strictly
inside dragThresholdMouse of the press point leaves hasDragged false, so
the following click performs its zoom action; if some event travels
strictly beyond the threshold, hasDragged is set, the following click is
suppressed exactly once (it clears the flag), and a second click performs
its zoom action again.  Distances are compared through their squares, which
matches the Math.hypot comparison of the source for the nonnegative
threshold. -/
theorem drag_threshold_gates_click (cfg : Config) (c el : Option Dims)
    (scale : ℚ) (pos : Position) (clientX clientY : ℚ)
    (moves : List (ℚ × ℚ)) (d : DragState) (hs : cfg.minScale < scale) :
    onImageMouseDown cfg scale clientX clientY pos false d
      = (true, { x := clientX - pos.x, y := clientY - pos.y
                 hasDragged := false, startX := clientX
                 startY := clientY }) ∧
    ((∀ m ∈ moves, (m.1 - clientX) ^ 2 + (m.2 - clientY) ^ 2
        < cfg.dragThresholdMouse ^ 2) →
      (onImageClick (runMouseMoves cfg c el scale true moves
          ({ x := clientX - pos.x, y := clientY - pos.y, hasDragged := false
             startX := clientX, startY := clientY }, pos)).1).1 = true) ∧
    ((∃ m ∈ moves, cfg.dragThresholdMouse ^ 2
        < (m.1 - clientX) ^ 2 + (m.2 - clientY) ^ 2) →
      ((runMouseMoves cfg c el scale true moves
          ({ x := clientX - pos.x, y := clientY - pos.y, hasDragged := false
             startX := clientX, startY := clientY }, pos)).1).hasDragged
          = true ∧
      (onImageClick (runMouseMoves cfg c el scale true moves
          ({ x := clientX - pos.x, y := clientY - pos.y, hasDragged := false
             startX := clientX, startY := clientY }, pos)).1).1 = false ∧
      ((onImageClick (runMouseMoves cfg c el scale true moves
          ({ x := clientX - pos.x, y := clientY - pos.y, hasDragged := false
             startX := clientX, startY := clientY }, pos)).1).2).hasDragged
          = false ∧
      (onImageClick ((onImageClick (runMouseMoves cfg c el scale true moves
          ({ x := clientX - pos.x, y := clientY - pos.y, hasDragged := false
             startX := clientX, startY := clientY }, pos)).1).2)).1
          = true) := by
  refine ⟨by unfold onImageMouseDown; rw [if_pos hs], ?_, ?_⟩
  · intro hsmall
    have hflag := runMouseMoves_flag_stays_false cfg c el scale true moves
      ({ x := clientX - pos.x, y := clientY - pos.y, hasDragged := false
         startX := clientX, startY := clientY }, pos) rfl hsmall
    simp [onImageClick, hflag]
  · intro hbig
    have hflag := runMouseMoves_flag_crosses cfg c el scale hs moves
      ({ x := clientX - pos.x, y := clientY - pos.y, hasDragged := false
         startX := clientX, startY := clientY }, pos) hbig
    refine ⟨hflag, ?_, ?_, ?_⟩
    · simp [onImageClick, hflag]
    · simp [onImageClick, hflag]
    · simp [onImageClick, hflag]

/-- C8 witness: press at the origin while zoomed to 2, one move 10 pixels
away (threshold 5): the flag is set and the first click is suppressed. -/
theorem drag_threshold_gates_click_witness :
    ((runMouseMoves defaultConfig none none 2 true [(10, 0)]
        ({ x := 0 - 0, y := 0 - 0, hasDragged := false, startX := 0
           startY := 0 }, { x := 0, y := 0 })).1).hasDragged = true ∧
    (onImageClick (runMouseMoves defaultConfig none none 2 true [(10, 0)]
        ({ x := 0 - 0, y := 0 - 0, hasDragged := false, startX := 0
           startY := 0 }, { x := 0, y := 0 })).1).1 = false := by
  have h := drag_threshold_gates_click defaultConfig none none 2
    { x := 0, y := 0 } 0 0 [(10, 0)]
    { x := 0, y := 0, hasDragged := false, startX := 0, startY := 0 }
    (by norm_num [defaultConfig])
  have hbig : ∃ m ∈ [((10 : ℚ), (0 : ℚ))],
      defaultConfig.dragThresholdMouse ^ 2
        < (m.1 - 0) ^ 2 + (m.2 - 0) ^ 2 := by
    refine ⟨(10, 0), by simp, ?_⟩
    norm_num [defaultConfig]
  have h2 := h.2.2 hbig
  exact ⟨h2.1, h2.2.1⟩

/-- C1: the scale range invariant fails on a reachable state.  From scale 1
under the default configuration, a two-finger touch with both fingers at
the same point records startDist = 0; a following two-finger move with the
fingers still coincident computes dist / startDist = 0 / 0 = NaN, Math.max
and Math.min propagate it, and the handler commits scale = NaN, for which
minScale <= scale <= maxScale is false (both JavaScript comparisons against
NaN are false). -/
theorem pinch_nan_breaks_scale_range :
    (onImageTouchMovePinch
      { minScale := .num 1, maxScale := .num 6, boundsBuffer := .num 80 }
      (some { width := .num 800, height := .num 600 })
      (some { width := .num 800, height := .num 600 })
      (onImageTouchStartPinch (.num 0) (.num 100) (.num 100) (.num 1)
        { x := .num 0, y := .num 0 }
        (some { left := .num 0, top := .num 0, width := .num 800,
                height := .num 600 }))
      (.num 0) (.num 100) (.num 100)).scale = JsNum.nan ∧
    (jle (.num 1) JsNum.nan && jle JsNum.nan (.num 6)) = false := by
  constructor
  · rfl
  · rfl

/-- C5: the NaN guard is not applied to the pinch scale.  With a degenerate
pinch start distance of zero and a zero current distance, the candidate
scale is NaN; the claim requires the update to be dropped with the prior
scale (here 1) retained, but the handler commits the whole update: the
committed state has scale NaN and position (0, 0). -/
theorem pinch_nan_commit_not_dropped :
    onImageTouchMovePinch
      { minScale := .num 1, maxScale := .num 6, boundsBuffer := .num 80 }
      (some { width := .num 1000, height := .num 500 })
      (some { width := .num 1000, height := .num 500 })
      (onImageTouchStartPinch (.num 0) (.num 50) (.num 50) (.num 1)
        { x := .num 0, y := .num 0 }
        (some { left := .num 0, top := .num 0, width := .num 1000,
                height := .num 500 }))
      (.num 0) (.num 50) (.num 50)
      = { scale := JsNum.nan, position := { x := .num 0, y := .num 0 } } ∧
    JsNum.nan ≠ JsNum.num 1 := by
  constructor
  · rfl
  · intro h
    cases h
